import Mathlib

/-!
Verification development for the ADMET_tools repository.

The Python sources embedded here are:
  * Main_functions/ranker.py        — rank_n, calcular_puntaje_admet (with its
    inner add_score helper and the DEFAULT_WEIGHTS table);
  * Main_functions/consensus_by_class.py — consensus_score.

Python floats are modelled as rationals, pandas rows as association lists
from column name to a value, and Python run-time errors (TypeError raised by
comparing a non-number against a number) as the error case of Except.
-/

namespace ADMET

/-- A cell value of a pandas row: a number, a string, or a list of strings
(the only value shapes the scorer touches).  Absence of a column is modelled
by Option at the use sites. -/
inductive Val where
  | num (q : ℚ)
  | str (s : String)
  | list (l : List String)
deriving DecidableEq, Repr

/-- Python truthiness of a cell value (0.0, "" and [] are falsy). -/
def truthy : Val → Bool
  | .num q => decide (q ≠ 0)
  | .str s => decide (s ≠ "")
  | .list l => decide (l ≠ [])

/-- Python `a or b` on optional cell values: None and falsy values fall
through to the right operand. -/
def pyOr (a b : Option Val) : Option Val :=
  match a with
  | some v => if truthy v then some v else b
  | none => b

/-- A pandas row (pd.Series): an association list from column name to value. -/
abbrev Row := List (String × Val)

/-- A weight table (the pesos dict): association list criterion → weight. -/
abbrev Pesos := List (String × ℚ)

/-- row.get(key): the value stored under key, or None. -/
def rowGet (row : Row) (key : String) : Option Val :=
  (row.find? (fun p => decide (p.1 = key))).map (fun p => p.2)

/-- row.get(key, dflt): the value stored under key, or the default. -/
def rowGetD (row : Row) (key : String) (dflt : Option Val) : Option Val :=
  match rowGet row key with
  | some v => some v
  | none => dflt

/-- pesos.get(key, 0.0). -/
def pesosGet (pesos : Pesos) (key : String) : ℚ :=
  match (pesos.find? (fun p => decide (p.1 = key))).map (fun p => p.2) with
  | some w => w
  | none => 0

/-- Python `v <= q` for a cell value v and a number q: a TypeError (error)
unless v is a number. -/
def pyLe (v : Val) (q : ℚ) : Except Unit Bool :=
  match v with
  | .num x => .ok (decide (x ≤ q))
  | _ => .error ()

/-- rank_n from ranker.py.  For n_threshold = 2 and a value above
middle_threshold the Python code falls out of the if/elif chain and hits the
final `return 0.0`, so the result is 0, not None.  An unknown n_threshold
also returns 0 without evaluating any comparison. -/
def rank_n (var : Option Val) (peso n_threshold best_threshold middle_threshold : ℚ) :
    Except Unit ℚ :=
  match var with
  | none => .ok 0
  | some v =>
    if n_threshold = 3 then
      match pyLe v best_threshold with
      | .error e => .error e
      | .ok true => .ok (peso * 1)
      | .ok false =>
        match pyLe v middle_threshold with
        | .error e => .error e
        | .ok true => .ok (peso * 0.5)
        | .ok false => .ok (peso * 0.3)
    else if n_threshold = 2 then
      match pyLe v best_threshold with
      | .error e => .error e
      | .ok true => .ok (peso * 1)
      | .ok false =>
        match pyLe v middle_threshold with
        | .error e => .error e
        | .ok true => .ok (peso * 0.5)
        | .ok false => .ok 0
    else if n_threshold = 1.5 then
      match pyLe v best_threshold with
      | .error e => .error e
      | .ok b => .ok (if b then peso * 1 else peso * 0.5)
    else if n_threshold = 1 then
      match pyLe v best_threshold with
      | .error e => .error e
      | .ok b => .ok (if b then peso * 1 else 0)
    else .ok 0

/-- The running state of one scoring call: score, max_score and the
breakdown dict (in insertion order). -/
structure St where
  score : ℚ
  max_score : ℚ
  breakdown : List (String × ℚ)
deriving DecidableEq, Repr

/-- Python dict assignment breakdown[key] = v: overwrite in place if the key
exists, else append. -/
def bdInsert (bd : List (String × ℚ)) (key : String) (v : ℚ) : List (String × ℚ) :=
  if bd.any (fun p => decide (p.1 = key)) then
    bd.map (fun p => if p.1 = key then (key, v) else p)
  else bd ++ [(key, v)]

/-- The acceptability test of a direct-threshold block: numeric tests raise
on a non-number cell (Python TypeError), categorical tests never raise. -/
inductive Factor where
  | numf (g : ℚ → ℚ)
  | catf (f : Val → ℚ)

/-- Evaluate a Factor at a cell value. -/
def applyFactor : Factor → Val → Except Unit ℚ
  | .numf g, .num q => .ok (g q)
  | .numf _, _ => .error ()
  | .catf f, v => .ok (f v)

/-- The common shape of the inline direct-threshold blocks of
calcular_puntaje_admet: if the value is present and the weight positive,
compute contrib, add it to score, add the full weight to max_score and
record the breakdown entry; otherwise leave the state unchanged. -/
def contribBlock (st : St) (key : String) (value : Option Val) (peso : ℚ)
    (fac : Factor) : Except Unit St :=
  match value with
  | none => .ok st
  | some v =>
    if 0 < peso then
      match applyFactor fac v with
      | .error e => .error e
      | .ok contrib =>
        .ok ⟨st.score + contrib, st.max_score + peso, bdInsert st.breakdown key contrib⟩
    else .ok st

/-- add_score, the inner helper of calcular_puntaje_admet.  Note the guard
is `peso == 0.0 or value is None` (not `peso > 0`). -/
def add_score (pesos : Pesos) (st : St) (key : String) (value : Option Val)
    (use_rank : Bool) (n_threshold best_threshold middle_threshold : ℚ) : Except Unit St :=
  let peso := pesosGet pesos key
  if peso = 0 ∨ value = none then .ok st
  else
    match (if use_rank then rank_n value peso n_threshold best_threshold middle_threshold
           else .ok peso) with
    | .error e => .error e
    | .ok contrib =>
      .ok ⟨st.score + contrib, st.max_score + peso, bdInsert st.breakdown key contrib⟩

/-- Run a sequence of scoring statements left to right; a raised error
aborts the rest (it is caught at the top level of the scoring call). -/
def runSteps : List (St → Except Unit St) → St → Except Unit St
  | [], st => .ok st
  | s :: rest, st =>
    match s st with
    | .error e => .error e
    | .ok st' => runSteps rest st'

/-- DEFAULT_WEIGHTS from calcular_puntaje_admet, in source order. -/
def DEFAULT_WEIGHTS : Pesos :=
  [("stereo", 1), ("logD", 1), ("logP", 1), ("free_energy_hyd", 1),
   ("qed", 0.5), ("SAscore", 1),
   ("ghose", 1), ("lead", 1), ("brenk", 1), ("bioavailability", 0.5),
   ("alarm_nmr", 1), ("coloidal_ag", 1),
   ("reactive", 0.5), ("green_fluor", 0.5), ("other_interference", 0.5),
   ("caco2", 1.5), ("pampa", 1.5),
   ("mdck", 1),
   ("pgp_subs", 1.5), ("hia", 0.5),
   ("logvds", 1), ("fu", 0.5), ("cns_permeability", 0.5),
   ("mrp1", 1), ("bsep", 1), ("oatp1b3", 1), ("oatp1b1", 1),
   ("CYP2C9_inh", 0.5), ("CYP2C8_inh", 1),
   ("CYP2C19_inh", 1), ("CYP2C19_sub", 1),
   ("CYP2D6_inh", 1.5), ("CYP2D6_sub", 1.5),
   ("CYP3A4_inh", 1.5), ("CYP3A4_sub", 1.5),
   ("CYP2B6_inh", 1), ("hlm_stab", 1),
   ("oct2_subs", 1), ("cl_total", 0.5),
   ("cl_plasma", 0.5),
   ("neuro_tox", 1), ("oto_tox", 1), ("hema_tox", 1), ("gen_tox", 1), ("carcino_tox", 1),
   ("ames", 1.5), ("herg", 0.5), ("herg_10um", 0.5), ("hepa_tox", 1), ("dili", 1),
   ("LC50FM", 1),
   ("A549", 1), ("HEK293", 0.5), ("ROA", 1), ("FDAMDD", 1), ("IGC50", 1), ("LC50DM", 1),
   ("nr_ar", 1), ("nr_ar_lbd", 0.5), ("nr_er", 1), ("nr_arom", 1), ("nr_ahr", 0.5),
   ("sr_are", 1),
   ("sr_atad5", 0.5), ("sr_mmp", 0.5), ("sr_p53", 1), ("sure_chembl", 1)]

/-- `pesos = pesos or DEFAULT_WEIGHTS`: None and the empty dict (both falsy)
are replaced by the default table. -/
def pesosResolve (pesos : Option Pesos) : Pesos :=
  match pesos with
  | none => DEFAULT_WEIGHTS
  | some p => if p.isEmpty then DEFAULT_WEIGHTS else p

/-- The alarm_nmr / SureChEMBL cleanliness test:
`(isinstance(x, list) and x == ['-']) or str(x) == "['-']"`, with the str()
conversion modelled structurally (a number never prints as "['-']", a list
prints as "['-']" exactly when it is the singleton ['-']). -/
def alarmClean : Val → Bool
  | .list l => decide (l = ["-"])
  | .str s => decide (s = "['-']")
  | .num _ => false

/-- `row.get('WLOGP') or row.get('LOGP') or row.get('logP')`. -/
def logpValue (row : Row) : Option Val :=
  pyOr (pyOr (rowGet row "WLOGP") (rowGet row "LOGP")) (rowGet row "logP")

/-- The FQ category block of calcular_puntaje_admet, one step per source
statement. -/
def fqSteps (row : Row) (pesos : Pesos) : List (St → Except Unit St) :=
  [fun st => add_score pesos st "stereo"
      (rowGetD row "nStereo" (rowGet row "stereo_centers")) true 1 2 0.7,
   fun st =>
     let p := pesosGet pesos "logD"
     contribBlock st "logD" (rowGet row "logD") p
       (.numf fun v => if 1 ≤ v ∧ v ≤ 3 then p else p * 0.5),
   fun st =>
     let p := pesosGet pesos "logP"
     contribBlock st "logP" (logpValue row) p
       (.numf fun v => if 0.95 ≤ v ∧ v ≤ 2.2 then p else if 0 ≤ v then p * 0.5 else 0),
   fun st =>
     let p := pesosGet pesos "free_energy_hyd"
     contribBlock st "free_energy_hyd" (rowGet row "HydrationFreeEnergy_FreeSolv") p
       (.numf fun v => if -7 ≤ v then p else p * 0.5)]

/-- The Medicinal Chemistry category block. -/
def medchemSteps (row : Row) (pesos : Pesos) : List (St → Except Unit St) :=
  [fun st =>
     let p := pesosGet pesos "qed"
     contribBlock st "qed" (rowGet row "QED") p
       (.numf fun v => if 0.67 ≤ v then p else if 0.49 < v then p * 0.5 else 0),
   fun st => add_score pesos st "SAscore"
      (rowGetD row "Synthetic Accessibility" (rowGet row "Synth")) true 2 4.25 6,
   fun st => add_score pesos st "ghose" (rowGet row "Ghose #violations") true 2 0 1,
   fun st => add_score pesos st "lead" (rowGet row "Leadlikeness #violations") true 2 0 1,
   fun st => add_score pesos st "brenk" (rowGet row "Brenk #alerts") true 2 0 1,
   fun st =>
     let p := pesosGet pesos "bioavailability"
     contribBlock st "bioavailability"
       (rowGetD row "Bioavailability_Ma" (rowGet row "Bioavailability Score")) p
       (.numf fun v => if 0.55 ≤ v then p else p * 0.5),
   fun st =>
     let p := pesosGet pesos "alarm_nmr"
     contribBlock st "alarm_nmr" (rowGet row "Alarm_NMR") p
       (.catf fun v => if alarmClean v then p else p * 0.5),
   fun st => add_score pesos st "coloidal_ag" (rowGet row "Aggregators") true 2 0.3 0.7,
   fun st => add_score pesos st "reactive" (rowGet row "Reactive") true 2 0.3 0.7,
   fun st => add_score pesos st "green_fluor" (rowGet row "Green_fluorescence") true 2 0.3 0.7,
   fun st => add_score pesos st "other_interference"
      (rowGet row "Other_assay_interference") true 2 0.3 0.7]

/-- The two caco2 statements of the Absorption block (lines 237-257 of
ranker.py): the Caco2_Wang/caco2 value and then the 'Caco2 permeability'
value, both using the caco2 weight and the same breakdown key. -/
def caco2Steps (row : Row) (pesos : Pesos) : List (St → Except Unit St) :=
  [fun st =>
     let p := pesosGet pesos "caco2"
     contribBlock st "caco2" (pyOr (rowGet row "Caco2_Wang") (rowGet row "caco2")) p
       (.numf fun v => if -5.15 ≤ v then p else p * 0.5),
   fun st =>
     let p := pesosGet pesos "caco2"
     contribBlock st "caco2" (rowGet row "Caco2 permeability") p
       (.numf fun v => if 0.9 ≤ v then p else p * 0.5)]

/-- The rest of the Absorption block. -/
def absRestSteps (row : Row) (pesos : Pesos) : List (St → Except Unit St) :=
  [fun st =>
     let p := pesosGet pesos "pampa"
     contribBlock st "pampa" (rowGet row "PAMPA_NCATS") p
       (.numf fun v => if 0.7 ≤ v then p else if 0.3 ≤ v then p * 0.5 else 0),
   fun st => add_score pesos st "pampa" (rowGet row "PAMPA") true 2 0.3 0.7,
   fun st =>
     let p := pesosGet pesos "mdck"
     contribBlock st "mdck" (rowGet row "MDCK") p
       (.numf fun v => if -5.26 ≤ v ∧ v ≤ 5.17 then p else p * 0.5),
   fun st => add_score pesos st "pgp_subs" (rowGet row "pgp_sub") true 3 0.3 0.7,
   fun st =>
     let p := pesosGet pesos "pgp_subs"
     contribBlock st "pgp_subs"
       (rowGetD row "Pgp substrate" (rowGet row "P-glycoprotein substrate")) p
       (.catf fun v => if v = .str "No" then p else p * 0.5),
   fun st =>
     let p := pesosGet pesos "hia"
     contribBlock st "hia" (rowGet row "Intestinal absorption (human)") p
       (.numf fun v => if 30 ≤ v ∧ v ≤ 70 then p else p * 0.5)]

/-- The Absorption category block. -/
def absSteps (row : Row) (pesos : Pesos) : List (St → Except Unit St) :=
  caco2Steps row pesos ++ absRestSteps row pesos

/-- The Distribution category block. -/
def disSteps (row : Row) (pesos : Pesos) : List (St → Except Unit St) :=
  [fun st =>
     let p := pesosGet pesos "logvds"
     contribBlock st "logvds" (rowGet row "VDss (human)") p
       (.numf fun v => if 0.45 ≤ v ∧ v ≤ 0.75 then p else p * 0.5),
   fun st =>
     let p := pesosGet pesos "logvds"
     contribBlock st "logvds" (rowGet row "VDss_Lombardo") p
       (.numf fun v => if 2 ≤ v ∧ v ≤ 5 then p else p * 0.5),
   fun st =>
     let p := pesosGet pesos "logvds"
     contribBlock st "logvds" (rowGet row "logVDss") p
       (.numf fun v => if 0.04 ≤ v then p else p * 0.5),
   fun st =>
     let p := pesosGet pesos "fu"
     contribBlock st "fu" (rowGet row "Fraction unbound (human)") p
       (.numf fun v => if 0.1 ≤ v ∧ v ≤ 0.5 then p else p * 0.5),
   fun st =>
     let p := pesosGet pesos "fu"
     contribBlock st "fu" (rowGet row "Fu") p
       (.numf fun v => if 58.3 ≤ v ∧ v ≤ 62.0 then p else p * 0.5),
   fun st =>
     let p := pesosGet pesos "cns_permeability"
     contribBlock st "cns_permeability" (rowGet row "CNS permeability") p
       (.numf fun v => if v ≤ -2 then p else p * 0.5),
   fun st => add_score pesos st "mrp1" (rowGet row "MRP1") true 3 0.3 0.7,
   fun st => add_score pesos st "bsep" (rowGet row "BSEP") true 3 0.3 0.7,
   fun st => add_score pesos st "oatp1b3" (rowGet row "OATP1B3") true 3 0.3 0.7,
   fun st => add_score pesos st "oatp1b1" (rowGet row "OATP1B1") true 3 0.3 0.7]

/-- The Metabolism category block. -/
def metSteps (row : Row) (pesos : Pesos) : List (St → Except Unit St) :=
  [fun st => add_score pesos st "CYP2C9_inh" (rowGet row "CYP2C9-inh") true 2 0.3 0.7,
   fun st => add_score pesos st "CYP2C8_inh" (rowGet row "CYP2C8-inh") true 2 0.3 0.7,
   fun st => add_score pesos st "CYP2C19_inh" (rowGet row "CYP2C19-inh") true 2 0.3 0.7,
   fun st => add_score pesos st "CYP2C19_sub" (rowGet row "CYP2C19-sub") true 2 0.3 0.7,
   fun st =>
     let p := pesosGet pesos "CYP2C19_inh"
     contribBlock st "CYP2C19_inh" (rowGet row "CYP2C19 inhibitor") p
       (.catf fun v => if v = .str "No" then p else p * 0.5),
   fun st => add_score pesos st "CYP2D6_inh" (rowGet row "CYP2D6-inh") true 2 0.3 0.7,
   fun st => add_score pesos st "CYP2D6_sub"
      (rowGetD row "CYP2D6-sub" (rowGet row "CYP2D6_Substrate_CarbonMangels")) true 3 0.3 0.7,
   fun st => add_score pesos st "CYP3A4_inh"
      (rowGetD row "CYP3A4-inh" (rowGet row "CYP3A4_Veith")) true 3 0.3 0.7,
   fun st => add_score pesos st "CYP3A4_sub"
      (rowGetD row "CYP3A4-sub" (rowGet row "CYP3A4_Substrate_CarbonMangels")) true 2 0.3 0.7,
   fun st =>
     let p := pesosGet pesos "CYP3A4_sub"
     contribBlock st "CYP3A4_sub" (rowGet row "CYP3A4 substrate") p
       (.catf fun v => if v = .str "No" then p else p * 0.5),
   fun st => add_score pesos st "CYP2B6_inh" (rowGet row "CYP2B6-inh") true 3 0.3 0.7,
   fun st => add_score pesos st "hlm_stab" (rowGet row "LM-human") true 3 0.3 0.7]

/-- The Excretion category block. -/
def excSteps (row : Row) (pesos : Pesos) : List (St → Except Unit St) :=
  [fun st =>
     let p := pesosGet pesos "oct2_subs"
     contribBlock st "oct2_subs" (rowGet row "Renal OCT2 substrate") p
       (.catf fun v => if v = .str "No" then p else p * 0.5),
   fun st =>
     let p := pesosGet pesos "cl_total"
     contribBlock st "cl_total" (rowGet row "Total Clearance") p
       (.numf fun v => if 1.2 ≤ v ∧ v ≤ 1.3 then p else p * 0.5),
   fun st =>
     let p := pesosGet pesos "cl_plasma"
     contribBlock st "cl_plasma" (rowGet row "cl-plasma") p
       (.numf fun v => if 7 ≤ v ∧ v ≤ 8 then p else p * 0.5)]

/-- The Toxicity statements before the ames group. -/
def toxStepsA (row : Row) (pesos : Pesos) : List (St → Except Unit St) :=
  [fun st => add_score pesos st "resp_tox" (rowGet row "Respiratory") true 3 0.3 0.7,
   fun st => add_score pesos st "neuro_tox" (rowGet row "Neurotoxicity-DI") true 3 0.3 0.7,
   fun st => add_score pesos st "oto_tox" (rowGet row "Ototoxicity") true 3 0.3 0.7,
   fun st => add_score pesos st "hema_tox" (rowGet row "Hematotoxicity") true 3 0.3 0.7,
   fun st => add_score pesos st "gen_tox" (rowGet row "Genotoxicity") true 3 0.3 0.7]

/-- The three ames statements (lines 487-498 of ranker.py): the Lab3 'Ames'
column, the AI 'AMES' column, and the categorical 'AMES toxicity' column,
all under the ames weight and breakdown key. -/
def amesSteps (row : Row) (pesos : Pesos) : List (St → Except Unit St) :=
  [fun st => add_score pesos st "ames" (rowGet row "Ames") true 3 0.3 0.7,
   fun st => add_score pesos st "ames" (rowGet row "AMES") true 3 0.1 0.2,
   fun st =>
     let p := pesosGet pesos "ames"
     contribBlock st "ames" (rowGet row "AMES toxicity") p
       (.catf fun v => if v = .str "No" then p else p * 0.5)]

/-- The Toxicity statements after the ames group. -/
def toxStepsB (row : Row) (pesos : Pesos) : List (St → Except Unit St) :=
  [fun st => add_score pesos st "carcino_tox" (rowGet row "Carcinogenicity") true 3 0.3 0.7,
   fun st => add_score pesos st "herg" (rowGet row "hERG") true 3 0.3 0.7,
   fun st => add_score pesos st "herg_10um" (rowGet row "hERG-10um") true 3 0.3 0.7,
   fun st => add_score pesos st "hepa_tox" (rowGet row "H-HT") true 3 0.3 0.7,
   fun st => add_score pesos st "dili" (rowGet row "DILI") true 3 0.3 0.8,
   fun st => add_score pesos st "dili" (rowGet row "DILI_AI") true 3 0.05 0.10,
   fun st =>
     let p := pesosGet pesos "dili"
     contribBlock st "dili" (rowGet row "Hepatotoxicity") p
       (.catf fun v => if v = .str "No" then p else p * 0.5),
   fun st => add_score pesos st "A549" (rowGet row "A549") true 3 0.3 0.7,
   fun st => add_score pesos st "HEK293" (rowGet row "HEK293") true 3 0.3 0.7,
   fun st => add_score pesos st "ROA" (rowGet row "ROA") true 3 0.3 0.7,
   fun st => add_score pesos st "FDAMDD" (rowGet row "FDAMDD") true 3 0.3 0.7,
   fun st =>
     let p := pesosGet pesos "IGC50"
     contribBlock st "IGC50" (rowGet row "IGC50") p
       (.numf fun v => if v ≤ 3.5 then p else p * 0.5),
   fun st => add_score pesos st "IGC50"
      (rowGet row "<i>T.Pyriformis</i> toxicity") true 1 0.3 0.7,
   fun st => add_score pesos st "LC50FM" (rowGet row "LC50FM") true 3 3 4.3,
   fun st =>
     let p := pesosGet pesos "LC50FM"
     contribBlock st "LC50FM" (rowGet row "Minnow toxicity") p
       (.numf fun v => if 2.06 ≤ v then p else p * 0.5),
   fun st => add_score pesos st "LC50DM" (rowGet row "LC50DM") true 3 4.5 4.7,
   fun st => add_score pesos st "nr_ar" (rowGet row "NR-AR") true 3 0.3 0.7,
   fun st => add_score pesos st "nr_ar_lbd" (rowGet row "NR-AR-LBD") true 3 0.3 0.7,
   fun st => add_score pesos st "nr_er" (rowGet row "NR-ER") true 3 0.3 0.7,
   fun st => add_score pesos st "nr_arom" (rowGet row "NR-Aromatase") true 3 0.3 0.7,
   fun st => add_score pesos st "nr_ahr" (rowGet row "NR-AhR") true 3 0.3 0.7,
   fun st => add_score pesos st "sr_are" (rowGet row "SR-ARE") true 3 0.3 0.7,
   fun st => add_score pesos st "sr_atad5" (rowGet row "SR-ATAD5") true 3 0.3 0.7,
   fun st => add_score pesos st "sr_mmp" (rowGet row "SR-MMP") true 3 0.3 0.7,
   fun st => add_score pesos st "sr_p53" (rowGet row "SR-p53") true 3 0.3 0.7,
   fun st =>
     let p := pesosGet pesos "sure_chembl"
     contribBlock st "sure_chembl" (rowGet row "SureChEMBL") p
       (.catf fun v => if alarmClean v then p else p * 0.5)]

/-- The Toxicity category block. -/
def toxSteps (row : Row) (pesos : Pesos) : List (St → Except Unit St) :=
  toxStepsA row pesos ++ amesSteps row pesos ++ toxStepsB row pesos

/-- All scoring statements of one call, gated by the seven category flags. -/
def scoreSteps (row : Row) (pesos : Pesos) (FQ MedChem Abs Dis Met Exc Tox : Bool) :
    List (St → Except Unit St) :=
  (if FQ then fqSteps row pesos else []) ++
  (if MedChem then medchemSteps row pesos else []) ++
  (if Abs then absSteps row pesos else []) ++
  (if Dis then disSteps row pesos else []) ++
  (if Met then metSteps row pesos else []) ++
  (if Exc then excSteps row pesos else []) ++
  (if Tox then toxSteps row pesos else [])

/-- Evaluate the whole try-block of calcular_puntaje_admet on a row,
starting from score = 0, max_score = 0, empty breakdown. -/
def evalRow (row : Row) (pesos : Pesos) (FQ MedChem Abs Dis Met Exc Tox : Bool) :
    Except Unit St :=
  runSteps (scoreSteps row pesos FQ MedChem Abs Dis Met Exc Tox) ⟨0, 0, []⟩

/-- Python round to nearest integer with ties to even (banker's rounding). -/
def pyRound (q : ℚ) : ℤ :=
  let f := ⌊q⌋
  if q - f < 0.5 then f
  else if 0.5 < q - f then f + 1
  else if f % 2 = 0 then f else f + 1

/-- Python round(x, 4). -/
def pyRound4 (q : ℚ) : ℚ :=
  (pyRound (q * 10000) : ℚ) / 10000

/-- The value returned by calcular_puntaje_admet: either a bare float or
the (score, norm_score, breakdown) triple. -/
inductive Ret where
  | scalar (q : ℚ)
  | triple (score norm : ℚ) (breakdown : List (String × ℚ))
deriving DecidableEq, Repr

/-- The normalized score carried by a scoring result, whichever shape it
has. -/
def retNorm : Ret → ℚ
  | .scalar q => q
  | .triple _ n _ => n

/-- calcular_puntaje_admet from ranker.py.  A run-time error inside the
try-block is caught and the call returns the bare float 0.0 (regardless of
return_breakdown); otherwise norm_score is round(score / max_score, 4) when
max_score > 0 and 0.0 otherwise, and the result is the triple when
return_breakdown is requested, the bare norm_score when not. -/
def calcular_puntaje_admet (row : Row) (pesos : Option Pesos) (return_breakdown : Bool)
    (FQ MedChem Abs Dis Met Exc Tox : Bool) : Ret :=
  let ps := pesosResolve pesos
  match evalRow row ps FQ MedChem Abs Dis Met Exc Tox with
  | .error _ => .scalar 0
  | .ok st =>
    let norm := if 0 < st.max_score then pyRound4 (st.score / st.max_score) else 0
    if return_breakdown then .triple st.score norm st.breakdown else .scalar norm

/-! ## consensus_by_class.py -/

/-- One per-source score table handed to consensus_score: the name column
and the ADMET_Norm_Score column of one source. -/
abbrev Table := List (String × ℚ)

/-- One pd.merge(..., on="name", how="inner") step: every accumulated row is
paired with every row of the new table that has the same name; rows without
a partner are dropped. -/
def innerMerge (acc : List (String × List ℚ)) (t : Table) : List (String × List ℚ) :=
  acc.flatMap (fun p => (t.filter (fun q => decide (q.1 = p.1))).map (fun q => (p.1, p.2 ++ [q.2])))

/-- The progressive inner merge of consensus_score: start from dfs[0] and
merge each remaining table in turn. -/
def mergedRows (d0 : Table) (rest : List Table) : List (String × List ℚ) :=
  rest.foldl innerMerge (d0.map (fun p => (p.1, [p.2])))

/-- Row-wise mean over the score columns (.mean(axis=1)). -/
def pdMean (l : List ℚ) : ℚ := l.sum / (l.length : ℚ)

/-- Insert into a descending-sorted list, keeping it descending. -/
def insertDesc (v : ℚ) : List ℚ → List ℚ
  | [] => [v]
  | a :: t => if v ≤ a then a :: insertDesc v t else v :: a :: t

/-- Sort a list of scores in descending order. -/
def sortDesc : List ℚ → List ℚ
  | [] => []
  | a :: t => insertDesc a (sortDesc t)

/-- Position (1-based) of a value in a list: the rank a value gets from the
descending list of distinct consensus scores, i.e. pandas
rank(ascending=False, method="dense"). -/
def rankIn (l : List ℚ) (v : ℚ) : ℕ :=
  match l with
  | [] => 1
  | a :: t => if a = v then 1 else 1 + rankIn t v

/-- One output row of consensus_score: compound name, the per-source scores
collected by the merge, the consensus mean and the dense rank. -/
structure ConsRow where
  name : String
  scores : List ℚ
  consensus : ℚ
  rank : ℕ
deriving DecidableEq, Repr

/-- Insert into a list sorted ascending by rank (stable). -/
def insertByRank (r : ConsRow) : List ConsRow → List ConsRow
  | [] => [r]
  | a :: t => if a.rank ≤ r.rank then a :: insertByRank r t else r :: a :: t

/-- sort_values("admet_rank_consensus"): sort output rows ascending by the
consensus rank. -/
def sortByRank : List ConsRow → List ConsRow
  | [] => []
  | a :: t => insertByRank a (sortByRank t)

/-- consensus_score from consensus_by_class.py, on tables that carry the
name and normalized-score columns (the shape its caller passes): inner-merge
all tables on name, take the row mean of the per-source scores, dense-rank
it descending (rank = position among the distinct scores sorted in
descending order), and sort ascending by that rank. -/
def consensus_score (d0 : Table) (rest : List Table) : List ConsRow :=
  let merged := mergedRows d0 rest
  let withCons : List (String × List ℚ × ℚ) := merged.map (fun p => (p.1, p.2, pdMean p.2))
  let uniqDesc := sortDesc ((withCons.map (fun p => p.2.2)).dedup)
  let rows := withCons.map (fun p => ConsRow.mk p.1 p.2.1 p.2.2 (rankIn uniqDesc p.2.2))
  sortByRank rows

/-- The scoring invariant: the accumulated score is non-negative and never
exceeds the accumulated max_score. -/
def Inv (st : St) : Prop := 0 ≤ st.score ∧ st.score ≤ st.max_score

/-- A scoring statement preserves the invariant. -/
def PreservesInv (f : St → Except Unit St) : Prop :=
  ∀ st st', Inv st → f st = .ok st' → Inv st'

/-! ## Concrete rows used to settle the claims -/

/-- A row with a value above middle_threshold for an n_threshold=2 criterion
(Aggregators feeds coloidal_ag with n_threshold=2, thresholds 0.3/0.7). -/
def c1Row : Row := [("Aggregators", .num 0.8)]

/-- A malformed row: QED holds a string, so the QED comparison raises. -/
def c2Row : Row := [("QED", .str "x")]

/-- A row where the highest-priority logP alias WLOGP is present but 0.0
(falsy) while LOGP is present with value 2. -/
def c3Row : Row := [("WLOGP", .num 0), ("LOGP", .num 2)]

/-- A row carrying two separately evaluated caco2 aliases. -/
def c4RowA : Row := [("Caco2_Wang", .num (-5)), ("Caco2 permeability", .num 0.5)]

/-- A row carrying two separately evaluated ames aliases. -/
def c4RowB : Row := [("Ames", .num 0.2), ("AMES toxicity", .str "Yes")]

/-- The end-to-end example row of the spec. -/
def c7Row : Row := [("QED", .num 0.7), ("Ames", .num 0.2)]

/-- Three compounds with consensus scores 1, 1 and 0.5 in a single source
table. -/
def c9Table : Table := [("A", 1), ("B", 1), ("C", 0.5)]

/-- Two source tables sharing compounds A and B; X appears only in the
first. -/
def c8Table1 : Table := [("A", 1), ("X", 0.5), ("B", 0.5)]

/-- Second source table for the inner-join example. -/
def c8Table2 : Table := [("B", 1), ("A", 0.5)]

end ADMET

namespace ADMET

/-! ## General helper lemmas -/

/-- Looking a key up in an empty row yields None. -/
theorem rowGet_nil (key : String) : rowGet [] key = none := rfl

/-- Row lookup steps through the head pair. -/
theorem rowGet_cons (k : String) (v : Val) (r : Row) (key : String) :
    rowGet ((k, v) :: r) key = if k = key then some v else rowGet r key := by
  by_cases h : k = key <;> simp [rowGet, List.find?, h]

/-- Weight lookup in the empty table yields the 0.0 default. -/
theorem pesosGet_nil (key : String) : pesosGet [] key = 0 := rfl

/-- Weight lookup steps through the head pair. -/
theorem pesosGet_cons (k : String) (w : ℚ) (r : Pesos) (key : String) :
    pesosGet ((k, w) :: r) key = if k = key then w else pesosGet r key := by
  by_cases h : k = key <;> simp [pesosGet, List.find?, h]

/-- add_score with an absent value leaves the state unchanged. -/
theorem add_score_none (pesos : Pesos) (st : St) (key : String)
    (u : Bool) (n b m : ℚ) : add_score pesos st key none u n b m = .ok st := by
  simp [add_score]

/-- A direct-threshold block with an absent value leaves the state
unchanged. -/
theorem contribBlock_none (st : St) (key : String) (p : ℚ) (fac : Factor) :
    contribBlock st key none p fac = .ok st := rfl

/-- Running no steps returns the state unchanged. -/
theorem runSteps_nil (st : St) : runSteps [] st = .ok st := rfl

/-- Running a step sequence processes the head first. -/
theorem runSteps_cons (s : St → Except Unit St) (rest : List (St → Except Unit St)) (st : St) :
    runSteps (s :: rest) st =
      match s st with
      | .error e => .error e
      | .ok st' => runSteps rest st' := rfl

/-! ## Claim theorems -/

/-- C10: passing the empty weight mapping is identical to passing no
mapping at all — `pesos or DEFAULT_WEIGHTS` replaces both None and the
falsy empty dict by the built-in default table, so every row and every
category-flag configuration scores the same. -/
theorem empty_weights_default (row : Row) (rb f1 f2 f3 f4 f5 f6 f7 : Bool) :
    calcular_puntaje_admet row (some []) rb f1 f2 f3 f4 f5 f6 f7 =
      calcular_puntaje_admet row none rb f1 f2 f3 f4 f5 f6 f7 := rfl

/-- C7: on the row with QED = 0.7 and Ames = 0.2 under default weights with
only MedChem and Tox enabled, the scorer returns score 2.0, max_score 2.0
and normalized score 1.0 (QED contributes its full weight 0.5 since
0.7 is at least 0.67, Ames contributes its full weight 1.5 since 0.2 is at
most the best threshold 0.3 of the three-tier rank). -/
theorem end_to_end_example :
    calcular_puntaje_admet c7Row none true false true false false false false true =
      .triple 2 1 [("qed", 0.5), ("ames", 1.5)] ∧
    evalRow c7Row DEFAULT_WEIGHTS false true false false false false true =
      .ok ⟨2, 2, [("qed", 0.5), ("ames", 1.5)]⟩ :=
  ⟨of_decide_eq_true (by with_unfolding_all rfl), by with_unfolding_all rfl⟩

/-- C1 counterexample: the claim says a Tiered n_threshold=2 criterion whose
value exceeds middle_threshold contributes nothing at all — no weight in
max_score and no breakdown entry.  On the code, rank_n falls through to its
final `return 0.0`, so add_score records contribution 0.0, adds the full
weight 1.0 of coloidal_ag to max_score and stores a breakdown entry: the
row with Aggregators = 0.8 (above 0.7) ends with max_score 1 and breakdown
entry ("coloidal_ag", 0). -/
theorem rank2_above_middle_counterexample :
    evalRow c1Row DEFAULT_WEIGHTS false true false false false false false =
      .ok ⟨0, 1, [("coloidal_ag", 0)]⟩ ∧
    rank_n (some (.num 0.8)) 1 2 0.3 0.7 = .ok 0 := by
  constructor <;> with_unfolding_all rfl

/-- C1 (amended): for an n_threshold=2 Tiered criterion whose present value
exceeds both thresholds, rank_n returns 0.0 (the function's final return
statement), so the scorer adds 0.0 to score — leaving score unchanged —
but still adds the full criterion weight to max_score and records a
breakdown entry of 0.0 for the criterion. -/
theorem rank2_above_middle_zero_contrib (pesos : Pesos) (st : St) (key : String)
    (x best mid : ℚ) (hw : pesosGet pesos key ≠ 0) (hb : best < x) (hm : mid < x) :
    rank_n (some (.num x)) (pesosGet pesos key) 2 best mid = .ok 0 ∧
    add_score pesos st key (some (.num x)) true 2 best mid =
      .ok ⟨st.score, st.max_score + pesosGet pesos key, bdInsert st.breakdown key 0⟩ := by
  have hxb : decide (x ≤ best) = false := decide_eq_false (not_le.mpr hb)
  have hxm : decide (x ≤ mid) = false := decide_eq_false (not_le.mpr hm)
  have h2 : rank_n (some (.num x)) (pesosGet pesos key) 2 best mid = .ok 0 := by
    norm_num [rank_n, pyLe, hxb, hxm]
  exact ⟨h2, by simp [add_score, hw, h2]⟩

/-- C1 witness: the amended statement at the concrete input of the
counterexample (coloidal_ag weight 1, value 0.8, thresholds 0.3 and 0.7). -/
theorem rank2_above_middle_zero_contrib_witness :
    add_score DEFAULT_WEIGHTS ⟨0, 0, []⟩ "coloidal_ag" (some (.num 0.8)) true 2 0.3 0.7 =
      .ok ⟨0, 0 + pesosGet DEFAULT_WEIGHTS "coloidal_ag", bdInsert [] "coloidal_ag" 0⟩ :=
  (rank2_above_middle_zero_contrib DEFAULT_WEIGHTS ⟨0, 0, []⟩ "coloidal_ag" 0.8 0.3 0.7
    (of_decide_eq_true (by with_unfolding_all rfl)) (by norm_num) (by norm_num)).2

/-- C2 counterexample: the claim says a row whose evaluation raises returns
the zero value in the requested shape, in particular the triple
(0.0, 0.0, {}) when a breakdown is requested.  On the code the except
branch returns the bare float 0.0 even when return_breakdown=True: the row
with a string under QED yields Ret.scalar 0, not the triple. -/
theorem error_triple_counterexample :
    calcular_puntaje_admet c2Row none true true true true true true true true = .scalar 0 ∧
    Ret.scalar 0 ≠ Ret.triple 0 0 [] :=
  ⟨of_decide_eq_true (by with_unfolding_all rfl), by simp⟩

/-- C2 (amended): any error raised while evaluating the row is caught at
the top level and the call returns the bare scalar 0.0, regardless of the
shape requested by return_breakdown. -/
theorem error_returns_bare_zero (row : Row) (pesos : Option Pesos)
    (rb f1 f2 f3 f4 f5 f6 f7 : Bool) (e : Unit)
    (h : evalRow row (pesosResolve pesos) f1 f2 f3 f4 f5 f6 f7 = .error e) :
    calcular_puntaje_admet row pesos rb f1 f2 f3 f4 f5 f6 f7 = .scalar 0 := by
  simp [calcular_puntaje_admet, h]

/-- C2 witness: the amended statement at the malformed row with
return_breakdown=True. -/
theorem error_returns_bare_zero_witness :
    calcular_puntaje_admet c2Row none true true true true true true true true = .scalar 0 :=
  error_returns_bare_zero c2Row none true true true true true true true true ()
    (by with_unfolding_all rfl)

/-- C3 counterexample: the claim says that whenever the highest-priority
logP alias WLOGP is present its value is scored, even a value of 0.0.  On
the code the `or` chain skips falsy values: with WLOGP = 0.0 and LOGP = 2.0
present, the value scored is 2.0 (inside the good range, full weight 1 in
the breakdown) and not 0.0 (which would have scored the half weight 0.5). -/
theorem logp_alias_zero_counterexample :
    rowGet c3Row "WLOGP" = some (.num 0) ∧
    logpValue c3Row = some (.num 2) ∧
    logpValue c3Row ≠ some (.num 0) ∧
    evalRow c3Row DEFAULT_WEIGHTS true false false false false false false =
      .ok ⟨1, 1, [("logP", 1)]⟩ :=
  ⟨by with_unfolding_all rfl, by with_unfolding_all rfl,
   of_decide_eq_true (by with_unfolding_all rfl), by with_unfolding_all rfl⟩

/-- C3 (amended): the prioritized `or` lookup picks the first alias whose
value is truthy, not merely present: if the highest-priority alias WLOGP is
present with a truthy value (any nonzero number), that value wins; but a
present 0.0 under WLOGP is skipped and the lookup falls through to the
remaining aliases. -/
theorem logp_alias_truthy_priority :
    (∀ (row : Row) (v : Val), rowGet row "WLOGP" = some v → truthy v = true →
      logpValue row = some v) ∧
    (∀ row : Row, rowGet row "WLOGP" = some (.num 0) →
      logpValue row = pyOr (rowGet row "LOGP") (rowGet row "logP")) := by
  constructor
  · intro row v h ht
    simp [logpValue, pyOr, h, ht]
  · intro row h
    simp [logpValue, pyOr, h, truthy]

/-- C3 witness: the amended statement at a row holding WLOGP = 3. -/
theorem logp_alias_truthy_priority_witness :
    truthy (Val.num 3) = true ∧ logpValue [("WLOGP", Val.num 3)] = some (Val.num 3) :=
  ⟨of_decide_eq_true (by with_unfolding_all rfl),
   logp_alias_truthy_priority.1 [("WLOGP", Val.num 3)] (Val.num 3)
     (by with_unfolding_all rfl) (of_decide_eq_true (by with_unfolding_all rfl))⟩

end ADMET

namespace ADMET

/-- C4: when a row carries values under two separately evaluated aliases of
one criterion, both are scored: each contribution is added to score, the
full criterion weight enters max_score twice, and the breakdown keeps a
single entry holding the later alias's contribution (the second block
overwrites the first).  Shown for the caco2 pair (Caco2_Wang then
Caco2 permeability, weight 1.5 each) and the ames pair (Ames then the
categorical AMES toxicity, weight 1.5 each), plus the two full-scorer runs
on the concrete example rows. -/
theorem dual_alias_double_count :
    (∀ (a b sc mx : ℚ), a ≠ 0 →
      runSteps (caco2Steps [("Caco2_Wang", .num a), ("Caco2 permeability", .num b)]
          DEFAULT_WEIGHTS) ⟨sc, mx, []⟩ =
        .ok ⟨sc + (if -5.15 ≤ a then (1.5 : ℚ) else 1.5 * 0.5)
               + (if 0.9 ≤ b then (1.5 : ℚ) else 1.5 * 0.5),
             mx + 1.5 + 1.5,
             [("caco2", if 0.9 ≤ b then (1.5 : ℚ) else 1.5 * 0.5)]⟩) ∧
    (∀ (x : ℚ) (s : String) (sc mx : ℚ),
      runSteps (amesSteps [("Ames", .num x), ("AMES toxicity", .str s)]
          DEFAULT_WEIGHTS) ⟨sc, mx, []⟩ =
        .ok ⟨sc + (if x ≤ 0.3 then (1.5 : ℚ) else if x ≤ 0.7 then 1.5 * 0.5 else 1.5 * 0.3)
               + (if s = "No" then (1.5 : ℚ) else 1.5 * 0.5),
             mx + 1.5 + 1.5,
             [("ames", if s = "No" then (1.5 : ℚ) else 1.5 * 0.5)]⟩) ∧
    evalRow c4RowA DEFAULT_WEIGHTS false false true false false false false =
      .ok ⟨9/4, 3, [("caco2", 3/4)]⟩ ∧
    evalRow c4RowB DEFAULT_WEIGHTS false false false false false false true =
      .ok ⟨9/4, 3, [("ames", 3/4)]⟩ := by
  have hg : (0 : ℚ) < 1.5 := by norm_num
  have hw : ¬((1.5 : ℚ) = 0) := by norm_num
  refine ⟨?_, ?_, by with_unfolding_all rfl, by with_unfolding_all rfl⟩
  · intro a b sc mx ha
    by_cases h1 : (-5.15 : ℚ) ≤ a <;> by_cases h2 : (0.9 : ℚ) ≤ b <;>
      simp [caco2Steps, runSteps, contribBlock, applyFactor, rowGet_cons, rowGet_nil,
        pyOr, truthy, ha, h1, h2, bdInsert, pesosGet_cons, pesosGet_nil, DEFAULT_WEIGHTS, hg]
  · intro x s sc mx
    by_cases hx1 : x ≤ (0.3 : ℚ) <;> by_cases hx2 : x ≤ (0.7 : ℚ) <;>
      by_cases hs : s = "No" <;>
      simp [amesSteps, runSteps, add_score, rank_n, pyLe, contribBlock, applyFactor,
        rowGet_cons, rowGet_nil, bdInsert, pesosGet_cons, pesosGet_nil, DEFAULT_WEIGHTS,
        hg, hw, hx1, hx2, hs]

/-- C4 witness: the caco2 pair at the concrete row with Caco2_Wang = -5 and
Caco2 permeability = 0.5 (first alias in range, second below 0.9). -/
theorem dual_alias_double_count_witness :
    (-5 : ℚ) ≠ 0 ∧
    runSteps (caco2Steps c4RowA DEFAULT_WEIGHTS) ⟨0, 0, []⟩ =
      .ok ⟨0 + (if -5.15 ≤ (-5 : ℚ) then (1.5 : ℚ) else 1.5 * 0.5)
             + (if (0.9 : ℚ) ≤ 0.5 then (1.5 : ℚ) else 1.5 * 0.5),
           0 + 1.5 + 1.5,
           [("caco2", if (0.9 : ℚ) ≤ 0.5 then (1.5 : ℚ) else 1.5 * 0.5)]⟩ :=
  ⟨by norm_num, dual_alias_double_count.1 (-5) 0.5 0 0 (by norm_num)⟩

end ADMET

namespace ADMET

/-- C6: whatever shape the caller requested, the normalized score returned
is round(score / max_score, 4) when max_score > 0 and exactly 0.0 when
max_score = 0; in particular, with all seven category flags False the call
returns the triple (0.0, 0.0, {}) for every row and weight table. -/
theorem normalized_score_formula :
    (∀ (row : Row) (pesos : Option Pesos) (rb f1 f2 f3 f4 f5 f6 f7 : Bool) (st : St),
      evalRow row (pesosResolve pesos) f1 f2 f3 f4 f5 f6 f7 = .ok st →
      retNorm (calcular_puntaje_admet row pesos rb f1 f2 f3 f4 f5 f6 f7) =
        (if 0 < st.max_score then pyRound4 (st.score / st.max_score) else 0)) ∧
    (∀ (row : Row) (pesos : Option Pesos),
      calcular_puntaje_admet row pesos true false false false false false false false =
        .triple 0 0 []) := by
  constructor
  · intro row pesos rb f1 f2 f3 f4 f5 f6 f7 st h
    cases rb <;> simp [calcular_puntaje_admet, h, retNorm]
  · intro row pesos
    with_unfolding_all rfl

/-- C6 witness: the formula at the end-to-end example row, whose evaluation
state has score 2 and max_score 2. -/
theorem normalized_score_formula_witness :
    retNorm (calcular_puntaje_admet c7Row none true false true false false false false true) =
      (if 0 < (St.mk 2 2 [("qed", 0.5), ("ames", 1.5)]).max_score then
        pyRound4 ((St.mk 2 2 [("qed", 0.5), ("ames", 1.5)]).score /
          (St.mk 2 2 [("qed", 0.5), ("ames", 1.5)]).max_score)
       else 0) :=
  normalized_score_formula.1 c7Row none true false true false false false false true
    ⟨2, 2, [("qed", 0.5), ("ames", 1.5)]⟩ (by with_unfolding_all rfl)

end ADMET

namespace ADMET

/-! ## Invariant machinery for C5 -/

theorem pesosGet_nonneg (pesos : Pesos) (hps : ∀ p ∈ pesos, 0 ≤ p.2) (key : String) :
    0 ≤ pesosGet pesos key := by
  unfold pesosGet
  cases hf : pesos.find? (fun p => decide (p.1 = key)) with
  | none => simp
  | some p =>
    exact hps p (List.mem_of_find?_eq_some hf)

theorem rank_n_bound (v : Option Val) (peso n b m c : ℚ) (hp : 0 ≤ peso)
    (h : rank_n v peso n b m = .ok c) : 0 ≤ c ∧ c ≤ peso := by
  rcases v with _ | val
  · simp [rank_n] at h
    (try subst h) <;> constructor <;> linarith
  · rcases val with x | s | l
    · simp only [rank_n, pyLe] at h
      split_ifs at h <;>
        by_cases hxb : x ≤ b <;> by_cases hxm : x ≤ m <;>
        (try simp [hxb, hxm] at h) <;> (try subst h) <;> constructor <;> linarith
    · simp only [rank_n, pyLe] at h
      split_ifs at h <;> (try simp at h) <;> (try subst h) <;> constructor <;> linarith
    · simp only [rank_n, pyLe] at h
      split_ifs at h <;> (try simp at h) <;> (try subst h) <;> constructor <;> linarith

theorem numf_bound (peso : ℚ) (g : ℚ → ℚ) (hg : ∀ x, 0 ≤ g x ∧ g x ≤ peso) :
    ∀ v c, applyFactor (.numf g) v = .ok c → 0 ≤ c ∧ c ≤ peso := by
  intro v c h
  rcases v with x | s | l <;> simp [applyFactor] at h
  exact h ▸ hg x

theorem catf_bound (peso : ℚ) (f : Val → ℚ) (hf : ∀ v, 0 ≤ f v ∧ f v ≤ peso) :
    ∀ v c, applyFactor (.catf f) v = .ok c → 0 ≤ c ∧ c ≤ peso := by
  intro v c h
  simp [applyFactor] at h
  exact h ▸ hf v

theorem half_bound (p : ℚ) (hp : 0 ≤ p) (c : Prop) [Decidable c] :
    0 ≤ (if c then p else p * 0.5) ∧ (if c then p else p * 0.5) ≤ p := by
  constructor <;> split_ifs <;> linarith

theorem contribBlock_inv (st st' : St) (key : String) (value : Option Val) (peso : ℚ)
    (fac : Factor) (hInv : Inv st) (hp : 0 ≤ peso)
    (hf : ∀ v c, applyFactor fac v = .ok c → 0 ≤ c ∧ c ≤ peso)
    (h : contribBlock st key value peso fac = .ok st') : Inv st' := by
  rcases value with _ | v
  · rw [contribBlock_none] at h
    obtain rfl : st = st' := by simpa using h
    exact hInv
  · simp only [contribBlock] at h
    split_ifs at h with hpos
    · cases hfac : applyFactor fac v with
      | error e => rw [hfac] at h; simp at h
      | ok cc =>
        rw [hfac] at h
        obtain ⟨h0, hc⟩ := hf v cc hfac
        obtain rfl : St.mk (st.score + cc) (st.max_score + peso)
            (bdInsert st.breakdown key cc) = st' := by simpa using h
        exact ⟨by simp; linarith [hInv.1], by simp; linarith [hInv.2]⟩
    · obtain rfl : st = st' := by simpa using h
      exact hInv

theorem add_score_inv (pesos : Pesos) (hps : ∀ p ∈ pesos, 0 ≤ p.2)
    (st st' : St) (key : String) (value : Option Val) (u : Bool) (n b m : ℚ)
    (hInv : Inv st) (h : add_score pesos st key value u n b m = .ok st') : Inv st' := by
  have hp : 0 ≤ pesosGet pesos key := pesosGet_nonneg pesos hps key
  simp only [add_score] at h
  split_ifs at h with hguard hu
  · obtain rfl : st = st' := by simpa using h
    exact hInv
  · cases hr : rank_n value (pesosGet pesos key) n b m with
    | error e => rw [hr] at h; simp at h
    | ok cc =>
      rw [hr] at h
      obtain ⟨h0, hc⟩ := rank_n_bound value _ n b m cc hp hr
      obtain rfl : St.mk (st.score + cc) (st.max_score + pesosGet pesos key)
          (bdInsert st.breakdown key cc) = st' := by simpa using h
      exact ⟨by simp; linarith [hInv.1], by simp; linarith [hInv.2]⟩
  · obtain rfl : St.mk (st.score + pesosGet pesos key) (st.max_score + pesosGet pesos key)
        (bdInsert st.breakdown key (pesosGet pesos key)) = st' := by simpa using h
    exact ⟨by simp; linarith [hInv.1], by simp; linarith [hInv.2]⟩

theorem runSteps_inv (steps : List (St → Except Unit St)) :
    ∀ (st st' : St), (∀ s ∈ steps, PreservesInv s) → Inv st →
      runSteps steps st = .ok st' → Inv st' := by
  induction steps with
  | nil =>
    intro st st' _ hInv h
    rw [runSteps_nil] at h
    obtain rfl : st = st' := by simpa using h
    exact hInv
  | cons s rest ih =>
    intro st st' hall hInv h
    rw [runSteps_cons] at h
    cases hs : s st with
    | error e => rw [hs] at h; simp at h
    | ok st1 =>
      rw [hs] at h
      exact ih st1 st' (fun x hx => hall x (List.mem_cons_of_mem _ hx))
        (hall s (List.mem_cons_self _ _) st st1 hInv hs) h

theorem mem_iteSteps {s : St → Except Unit St} {b : Bool} {l : List (St → Except Unit St)}
    (h : s ∈ if b then l else []) : s ∈ l := by
  cases b <;> simp_all

theorem fqSteps_inv (row : Row) (pesos : Pesos) (hps : ∀ p ∈ pesos, 0 ≤ p.2) :
    ∀ s ∈ fqSteps row pesos, PreservesInv s := by
  have hp : ∀ key, 0 ≤ pesosGet pesos key := pesosGet_nonneg pesos hps
  intro s hs
  simp only [fqSteps, List.mem_cons, List.not_mem_nil, or_false] at hs
  rcases hs with rfl | rfl | rfl | rfl
  · intro st st' hI h; exact add_score_inv pesos hps st st' _ _ _ _ _ _ hI h
  · intro st st' hI h
    exact contribBlock_inv st st' _ _ _ _ hI (hp "logD")
      (numf_bound _ _ fun x => half_bound _ (hp "logD") _) h
  · intro st st' hI h
    refine contribBlock_inv st st' _ _ _ _ hI (hp "logP")
      (numf_bound _ _ fun x => ?_) h
    constructor <;> split_ifs <;> linarith [hp "logP"]
  · intro st st' hI h
    exact contribBlock_inv st st' _ _ _ _ hI (hp "free_energy_hyd")
      (numf_bound _ _ fun x => half_bound _ (hp "free_energy_hyd") _) h





theorem tri_bound (p : ℚ) (hp : 0 ≤ p) (c1 c2 : Prop) [Decidable c1] [Decidable c2] :
    0 ≤ (if c1 then p else if c2 then p * 0.5 else 0) ∧
      (if c1 then p else if c2 then p * 0.5 else 0) ≤ p := by
  constructor <;> split_ifs <;> linarith

theorem medchemSteps_inv (row : Row) (pesos : Pesos) (hps : ∀ p ∈ pesos, 0 ≤ p.2) :
    ∀ s ∈ medchemSteps row pesos, PreservesInv s := by
  have hp : ∀ key, 0 ≤ pesosGet pesos key := pesosGet_nonneg pesos hps
  intro s hs
  simp only [medchemSteps, List.mem_cons, List.not_mem_nil, or_false] at hs
  rcases hs with rfl|rfl|rfl|rfl|rfl|rfl|rfl|rfl|rfl|rfl|rfl <;>
    intro st st' hI h <;>
    first
      | exact add_score_inv pesos hps st st' _ _ _ _ _ _ hI h
      | exact contribBlock_inv st st' _ _ _ _ hI (hp _)
          (numf_bound _ _ fun x => half_bound _ (hp _) _) h
      | exact contribBlock_inv st st' _ _ _ _ hI (hp _)
          (numf_bound _ _ fun x => tri_bound _ (hp _) _ _) h
      | exact contribBlock_inv st st' _ _ _ _ hI (hp _)
          (catf_bound _ _ fun v => half_bound _ (hp _) _) h

theorem absSteps_inv (row : Row) (pesos : Pesos) (hps : ∀ p ∈ pesos, 0 ≤ p.2) :
    ∀ s ∈ absSteps row pesos, PreservesInv s := by
  have hp : ∀ key, 0 ≤ pesosGet pesos key := pesosGet_nonneg pesos hps
  intro s hs
  simp only [absSteps, caco2Steps, absRestSteps, List.mem_append, List.mem_cons,
    List.not_mem_nil, or_false] at hs
  rcases hs with (rfl|rfl)|rfl|rfl|rfl|rfl|rfl|rfl <;>
    intro st st' hI h <;>
    first
      | exact add_score_inv pesos hps st st' _ _ _ _ _ _ hI h
      | exact contribBlock_inv st st' _ _ _ _ hI (hp _)
          (numf_bound _ _ fun x => half_bound _ (hp _) _) h
      | exact contribBlock_inv st st' _ _ _ _ hI (hp _)
          (numf_bound _ _ fun x => tri_bound _ (hp _) _ _) h
      | exact contribBlock_inv st st' _ _ _ _ hI (hp _)
          (catf_bound _ _ fun v => half_bound _ (hp _) _) h

theorem disSteps_inv (row : Row) (pesos : Pesos) (hps : ∀ p ∈ pesos, 0 ≤ p.2) :
    ∀ s ∈ disSteps row pesos, PreservesInv s := by
  have hp : ∀ key, 0 ≤ pesosGet pesos key := pesosGet_nonneg pesos hps
  intro s hs
  simp only [disSteps, List.mem_cons, List.not_mem_nil, or_false] at hs
  rcases hs with rfl|rfl|rfl|rfl|rfl|rfl|rfl|rfl|rfl|rfl <;>
    intro st st' hI h <;>
    first
      | exact add_score_inv pesos hps st st' _ _ _ _ _ _ hI h
      | exact contribBlock_inv st st' _ _ _ _ hI (hp _)
          (numf_bound _ _ fun x => half_bound _ (hp _) _) h

theorem metSteps_inv (row : Row) (pesos : Pesos) (hps : ∀ p ∈ pesos, 0 ≤ p.2) :
    ∀ s ∈ metSteps row pesos, PreservesInv s := by
  have hp : ∀ key, 0 ≤ pesosGet pesos key := pesosGet_nonneg pesos hps
  intro s hs
  simp only [metSteps, List.mem_cons, List.not_mem_nil, or_false] at hs
  rcases hs with rfl|rfl|rfl|rfl|rfl|rfl|rfl|rfl|rfl|rfl|rfl|rfl <;>
    intro st st' hI h <;>
    first
      | exact add_score_inv pesos hps st st' _ _ _ _ _ _ hI h
      | exact contribBlock_inv st st' _ _ _ _ hI (hp _)
          (catf_bound _ _ fun v => half_bound _ (hp _) _) h

theorem excSteps_inv (row : Row) (pesos : Pesos) (hps : ∀ p ∈ pesos, 0 ≤ p.2) :
    ∀ s ∈ excSteps row pesos, PreservesInv s := by
  have hp : ∀ key, 0 ≤ pesosGet pesos key := pesosGet_nonneg pesos hps
  intro s hs
  simp only [excSteps, List.mem_cons, List.not_mem_nil, or_false] at hs
  rcases hs with rfl|rfl|rfl <;>
    intro st st' hI h <;>
    first
      | exact contribBlock_inv st st' _ _ _ _ hI (hp _)
          (numf_bound _ _ fun x => half_bound _ (hp _) _) h
      | exact contribBlock_inv st st' _ _ _ _ hI (hp _)
          (catf_bound _ _ fun v => half_bound _ (hp _) _) h

theorem toxSteps_inv (row : Row) (pesos : Pesos) (hps : ∀ p ∈ pesos, 0 ≤ p.2) :
    ∀ s ∈ toxSteps row pesos, PreservesInv s := by
  have hp : ∀ key, 0 ≤ pesosGet pesos key := pesosGet_nonneg pesos hps
  intro s hs
  simp only [toxSteps, toxStepsA, amesSteps, toxStepsB, List.mem_append, List.mem_cons,
    List.not_mem_nil, or_false] at hs
  rcases hs with ((rfl|rfl|rfl|rfl|rfl)|(rfl|rfl|rfl))|
    (rfl|rfl|rfl|rfl|rfl|rfl|rfl|rfl|rfl|rfl|rfl|rfl|rfl|rfl|rfl|rfl|rfl|rfl|rfl|rfl|rfl|rfl|rfl|rfl|rfl|rfl) <;>
    intro st st' hI h <;>
    first
      | exact add_score_inv pesos hps st st' _ _ _ _ _ _ hI h
      | exact contribBlock_inv st st' _ _ _ _ hI (hp _)
          (numf_bound _ _ fun x => half_bound _ (hp _) _) h
      | exact contribBlock_inv st st' _ _ _ _ hI (hp _)
          (catf_bound _ _ fun v => half_bound _ (hp _) _) h





theorem scoreSteps_inv (row : Row) (pesos : Pesos) (f1 f2 f3 f4 f5 f6 f7 : Bool)
    (hps : ∀ p ∈ pesos, 0 ≤ p.2) :
    ∀ s ∈ scoreSteps row pesos f1 f2 f3 f4 f5 f6 f7, PreservesInv s := by
  intro s hs
  simp only [scoreSteps, List.mem_append] at hs
  rcases hs with ((((((hs | hs) | hs) | hs) | hs) | hs) | hs)
  · exact fqSteps_inv row pesos hps s (mem_iteSteps hs)
  · exact medchemSteps_inv row pesos hps s (mem_iteSteps hs)
  · exact absSteps_inv row pesos hps s (mem_iteSteps hs)
  · exact disSteps_inv row pesos hps s (mem_iteSteps hs)
  · exact metSteps_inv row pesos hps s (mem_iteSteps hs)
  · exact excSteps_inv row pesos hps s (mem_iteSteps hs)
  · exact toxSteps_inv row pesos hps s (mem_iteSteps hs)

theorem evalRow_inv (row : Row) (pesos : Pesos) (f1 f2 f3 f4 f5 f6 f7 : Bool)
    (hps : ∀ p ∈ pesos, 0 ≤ p.2) (st : St)
    (h : evalRow row pesos f1 f2 f3 f4 f5 f6 f7 = .ok st) :
    0 ≤ st.score ∧ st.score ≤ st.max_score :=
  runSteps_inv _ _ _ (scoreSteps_inv row pesos f1 f2 f3 f4 f5 f6 f7 hps)
    ⟨le_refl 0, le_refl 0⟩ h

theorem pyRound_bounds (q : ℚ) (h0 : 0 ≤ q) (h1 : q ≤ 10000) :
    0 ≤ pyRound q ∧ pyRound q ≤ 10000 := by
  unfold pyRound
  dsimp only
  have hf0 : (0 : ℤ) ≤ ⌊q⌋ := Int.floor_nonneg.mpr h0
  have hfq : (⌊q⌋ : ℚ) ≤ q := Int.floor_le q
  have hfle : ⌊q⌋ ≤ 10000 := by
    have h := Int.floor_le_floor h1
    simpa using h
  split_ifs with ha hb hc
  · exact ⟨hf0, hfle⟩
  · refine ⟨by omega, ?_⟩
    have hq : (⌊q⌋ : ℚ) < 10000 := by linarith
    have : ⌊q⌋ < 10000 := by exact_mod_cast hq
    omega
  · exact ⟨hf0, hfle⟩
  · refine ⟨by omega, ?_⟩
    have hq : (⌊q⌋ : ℚ) < 10000 := by linarith
    have : ⌊q⌋ < 10000 := by exact_mod_cast hq
    omega

theorem pyRound4_bounds (x : ℚ) (h0 : 0 ≤ x) (h1 : x ≤ 1) :
    0 ≤ pyRound4 x ∧ pyRound4 x ≤ 1 := by
  unfold pyRound4
  obtain ⟨hr0, hr1⟩ := pyRound_bounds (x * 10000) (by linarith) (by linarith)
  constructor
  · apply div_nonneg _ (by norm_num)
    exact_mod_cast hr0
  · rw [div_le_one (by norm_num)]
    exact_mod_cast hr1

/-- C5: for every row and every weight table with non-negative weights, the
scorer maintains 0 <= score <= max_score (each criterion contributes at
least 0 and at most its weight to score while the full weight enters
max_score), so the normalized score the call returns always lies in the
interval [0, 1] -- also on the error path and the max_score = 0 path, where
it is 0. -/
theorem score_bounds_in_unit_interval (row : Row) (pesos : Option Pesos) (rb f1 f2 f3 f4 f5 f6 f7 : Bool)
    (hps : ∀ p ∈ pesosResolve pesos, 0 ≤ p.2) :
    (0 ≤ retNorm (calcular_puntaje_admet row pesos rb f1 f2 f3 f4 f5 f6 f7) ∧
     retNorm (calcular_puntaje_admet row pesos rb f1 f2 f3 f4 f5 f6 f7) ≤ 1) ∧
    (∀ st, evalRow row (pesosResolve pesos) f1 f2 f3 f4 f5 f6 f7 = .ok st →
      0 ≤ st.score ∧ st.score ≤ st.max_score) := by
  refine ⟨?_, fun st h => evalRow_inv row _ f1 f2 f3 f4 f5 f6 f7 hps st h⟩
  cases he : evalRow row (pesosResolve pesos) f1 f2 f3 f4 f5 f6 f7 with
  | error e =>
    simp only [calcular_puntaje_admet, he, retNorm]
    norm_num
  | ok st =>
    obtain ⟨h0, hle⟩ := evalRow_inv row _ f1 f2 f3 f4 f5 f6 f7 hps st he
    have hnorm : retNorm (calcular_puntaje_admet row pesos rb f1 f2 f3 f4 f5 f6 f7) =
        (if 0 < st.max_score then pyRound4 (st.score / st.max_score) else 0) := by
      cases rb <;> simp [calcular_puntaje_admet, he, retNorm]
    rw [hnorm]
    split_ifs with hpos
    · exact pyRound4_bounds _ (div_nonneg h0 hpos.le) ((div_le_one hpos).mpr hle)
    · norm_num

/-- C5 witness: the bounds at the end-to-end example row under the default
weight table, whose weights are all non-negative. -/
theorem score_bounds_in_unit_interval_witness :
    (∀ p ∈ pesosResolve none, 0 ≤ p.2) ∧
    (0 ≤ retNorm (calcular_puntaje_admet c7Row none true false true false false false false true) ∧
     retNorm (calcular_puntaje_admet c7Row none true false true false false false false true) ≤ 1) :=
  ⟨of_decide_eq_true (by with_unfolding_all rfl),
   (score_bounds_in_unit_interval c7Row none true false true false false false false true
     (of_decide_eq_true (by with_unfolding_all rfl))).1⟩

end ADMET

namespace ADMET

/-! ## Sorting, ranking and merge lemmas for the consensus aggregator -/

theorem perm_insertDesc (v : ℚ) (l : List ℚ) : List.Perm (insertDesc v l) (v :: l) := by
  induction l with
  | nil => simp [insertDesc]
  | cons a t ih =>
    simp only [insertDesc]
    split_ifs with h
    · exact (ih.cons a).trans (List.Perm.swap v a t)
    · exact List.Perm.refl _

theorem perm_sortDesc (l : List ℚ) : List.Perm (sortDesc l) l := by
  induction l with
  | nil => exact List.Perm.refl _
  | cons a t ih => exact (perm_insertDesc a (sortDesc t)).trans (ih.cons a)

theorem pairwise_insertDesc (v : ℚ) (l : List ℚ)
    (h : l.Pairwise (fun a b => b ≤ a)) :
    (insertDesc v l).Pairwise (fun a b => b ≤ a) := by
  induction l with
  | nil => simp [insertDesc]
  | cons a t ih =>
    rcases List.pairwise_cons.mp h with ⟨ha, ht⟩
    simp only [insertDesc]
    split_ifs with hv
    · refine List.pairwise_cons.mpr ⟨?_, ih ht⟩
      intro x hx
      rcases List.mem_cons.mp ((perm_insertDesc v t).mem_iff.mp hx) with rfl | hxt
      · exact hv
      · exact ha x hxt
    · refine List.pairwise_cons.mpr ⟨?_, h⟩
      intro x hx
      rcases List.mem_cons.mp hx with rfl | hxt
      · exact le_of_not_le hv
      · exact (ha x hxt).trans (le_of_not_le hv)

theorem sortDesc_pairwise (l : List ℚ) : (sortDesc l).Pairwise (fun a b => b ≤ a) := by
  induction l with
  | nil => simp [sortDesc]
  | cons a t ih => exact pairwise_insertDesc a _ ih

theorem sortDesc_strict (l : List ℚ) (hnd : l.Nodup) :
    (sortDesc l).Pairwise (fun a b => b < a) := by
  have hp := sortDesc_pairwise l
  have hnd2 : (sortDesc l).Nodup := ((perm_sortDesc l).nodup_iff).mpr hnd
  exact (hp.and hnd2).imp (fun hab => lt_of_le_of_ne hab.1 (Ne.symm hab.2))

theorem rankIn_strict (l : List ℚ) (v : ℚ) :
    l.Pairwise (fun a b => b < a) → v ∈ l →
    rankIn l v = 1 + (l.filter (fun w => decide (v < w))).length := by
  induction l with
  | nil => intro _ hv; cases hv
  | cons a t ih =>
    intro hs hv
    rcases List.pairwise_cons.mp hs with ⟨ha, ht⟩
    by_cases hav : a = v
    · subst hav
      have h1 : decide (a < a) = false := by simp
      have h2 : t.filter (fun w => decide (a < w)) = [] := by
        rw [List.filter_eq_nil_iff]
        intro w hw
        simp only [decide_eq_true_eq]
        exact not_lt.mpr (ha w hw).le
      simp [rankIn, h1, h2]
    · have hvt : v ∈ t := by
        rcases List.mem_cons.mp hv with h | h
        · exact absurd h.symm hav
        · exact h
      have hva : v < a := ha v hvt
      simp only [rankIn, if_neg hav]
      rw [ih ht hvt]
      have hfil : (a :: t).filter (fun w => decide (v < w)) =
          a :: t.filter (fun w => decide (v < w)) := by
        simp [List.filter_cons, hva]
      rw [hfil, List.length_cons]
      omega

theorem rank_characterization (vals : List ℚ) (v : ℚ) (hv : v ∈ vals) :
    rankIn (sortDesc vals.dedup) v =
      1 + (vals.dedup.filter (fun w => decide (v < w))).length := by
  have hnd : vals.dedup.Nodup := List.nodup_dedup vals
  have hstrict := sortDesc_strict _ hnd
  have hvmem : v ∈ sortDesc vals.dedup :=
    (perm_sortDesc _).mem_iff.mpr (List.mem_dedup.mpr hv)
  rw [rankIn_strict _ v hstrict hvmem]
  congr 1
  exact ((perm_sortDesc _).filter _).length_eq

theorem perm_insertByRank (r : ConsRow) (l : List ConsRow) : List.Perm (insertByRank r l) (r :: l) := by
  induction l with
  | nil => simp [insertByRank]
  | cons a t ih =>
    simp only [insertByRank]
    split_ifs with h
    · exact (ih.cons a).trans (List.Perm.swap r a t)
    · exact List.Perm.refl _

theorem perm_sortByRank (l : List ConsRow) : List.Perm (sortByRank l) l := by
  induction l with
  | nil => exact List.Perm.refl _
  | cons a t ih => exact (perm_insertByRank a (sortByRank t)).trans (ih.cons a)

theorem pairwise_insertByRank (r : ConsRow) (l : List ConsRow)
    (h : l.Pairwise (fun x y => x.rank ≤ y.rank)) :
    (insertByRank r l).Pairwise (fun x y => x.rank ≤ y.rank) := by
  induction l with
  | nil => simp [insertByRank]
  | cons a t ih =>
    rcases List.pairwise_cons.mp h with ⟨ha, ht⟩
    simp only [insertByRank]
    split_ifs with hv
    · refine List.pairwise_cons.mpr ⟨?_, ih ht⟩
      intro x hx
      rcases List.mem_cons.mp ((perm_insertByRank r t).mem_iff.mp hx) with rfl | hxt
      · exact hv
      · exact ha x hxt
    · refine List.pairwise_cons.mpr ⟨?_, h⟩
      intro x hx
      rcases List.mem_cons.mp hx with rfl | hxt
      · exact Nat.le_of_not_le hv
      · exact (Nat.le_of_not_le hv).trans (ha x hxt)

theorem sortByRank_sorted (l : List ConsRow) :
    (sortByRank l).Pairwise (fun x y => x.rank ≤ y.rank) := by
  induction l with
  | nil => simp [sortByRank]
  | cons a t ih => exact pairwise_insertByRank a _ ih

theorem innerMerge_names (acc : List (String × List ℚ)) (t : Table) (nm : String) :
    nm ∈ (innerMerge acc t).map Prod.fst ↔
      nm ∈ acc.map Prod.fst ∧ nm ∈ t.map Prod.fst := by
  constructor
  · intro h
    obtain ⟨x, hx, rfl⟩ := List.mem_map.mp h
    obtain ⟨p, hp, hx2⟩ := List.mem_flatMap.mp hx
    obtain ⟨q, hq, rfl⟩ := List.mem_map.mp hx2
    obtain ⟨hqt, hq1⟩ := List.mem_filter.mp hq
    refine ⟨List.mem_map.mpr ⟨p, hp, rfl⟩, List.mem_map.mpr ⟨q, hqt, ?_⟩⟩
    simpa using hq1
  · rintro ⟨h1, h2⟩
    obtain ⟨p, hp, rfl⟩ := List.mem_map.mp h1
    obtain ⟨q, hq, hq1⟩ := List.mem_map.mp h2
    refine List.mem_map.mpr ⟨(p.1, p.2 ++ [q.2]), ?_, rfl⟩
    refine List.mem_flatMap.mpr ⟨p, hp, ?_⟩
    refine List.mem_map.mpr ⟨q, ?_, rfl⟩
    exact List.mem_filter.mpr ⟨hq, by simpa using hq1⟩

theorem foldl_innerMerge_names (rest : List Table) :
    ∀ (acc : List (String × List ℚ)) (nm : String),
      nm ∈ (rest.foldl innerMerge acc).map Prod.fst ↔
        (nm ∈ acc.map Prod.fst ∧ ∀ t ∈ rest, nm ∈ t.map Prod.fst) := by
  induction rest with
  | nil =>
    intro acc nm
    simp
  | cons t rest ih =>
    intro acc nm
    rw [List.foldl_cons, ih, innerMerge_names]
    simp only [List.mem_cons]
    constructor
    · rintro ⟨⟨ha, ht⟩, hall⟩
      exact ⟨ha, fun t' h => h.elim (fun e => e ▸ ht) (hall t')⟩
    · rintro ⟨ha, hall⟩
      exact ⟨⟨ha, hall t (Or.inl rfl)⟩, fun t' h => hall t' (Or.inr h)⟩

/-- C8: a compound appears in the consensus output if and only if it is
present under the name column in every input table; a compound missing from
any one source is dropped by the progressive inner merge. -/
theorem consensus_inner_join (d0 : Table) (rest : List Table) (nm : String) :
    nm ∈ (consensus_score d0 rest).map ConsRow.name ↔
      (nm ∈ d0.map Prod.fst ∧ ∀ t ∈ rest, nm ∈ t.map Prod.fst) := by
  have hml : nm ∈ (consensus_score d0 rest).map ConsRow.name ↔
      nm ∈ (mergedRows d0 rest).map Prod.fst := by
    simp only [consensus_score]
    constructor
    · intro h
      obtain ⟨r, hr, rfl⟩ := List.mem_map.mp h
      have hr2 := (perm_sortByRank _).mem_iff.mp hr
      obtain ⟨p, hp, rfl⟩ := List.mem_map.mp hr2
      obtain ⟨q, hq, rfl⟩ := List.mem_map.mp hp
      exact List.mem_map.mpr ⟨q, hq, rfl⟩
    · intro h
      obtain ⟨q, hq, rfl⟩ := List.mem_map.mp h
      refine List.mem_map.mpr ⟨ConsRow.mk q.1 q.2 (pdMean q.2)
        (rankIn (sortDesc ((((mergedRows d0 rest).map
          (fun p => (p.1, p.2, pdMean p.2))).map (fun p => p.2.2)).dedup)) (pdMean q.2)), ?_, rfl⟩
      refine (perm_sortByRank _).mem_iff.mpr ?_
      exact List.mem_map.mpr ⟨(q.1, q.2, pdMean q.2), List.mem_map.mpr ⟨q, hq, rfl⟩, rfl⟩
  rw [hml]
  unfold mergedRows
  rw [foldl_innerMerge_names]
  simp [List.map_map, Function.comp]

/-- C8 witness: with two source tables sharing A and B while X appears only
in the first, A is in the consensus output and X is not. -/
theorem consensus_inner_join_witness :
    "A" ∈ (consensus_score c8Table1 [c8Table2]).map ConsRow.name ∧
    "X" ∉ (consensus_score c8Table1 [c8Table2]).map ConsRow.name :=
  ⟨(consensus_inner_join c8Table1 [c8Table2] "A").mpr
      (of_decide_eq_true (by with_unfolding_all rfl)),
   fun h => absurd ((consensus_inner_join c8Table1 [c8Table2] "X").mp h)
      (of_decide_eq_true (by with_unfolding_all rfl))⟩

/-- C9: in the consensus output every row's consensus score is the
arithmetic mean of its per-source scores, every row's rank is the dense
rank of its consensus score in descending order (1 plus the number of
distinct consensus scores strictly greater, so ties share a rank and there
are no gaps), the output is sorted ascending by rank, and the concrete
scores 1, 1, 0.5 receive ranks 1, 1, 2. -/
theorem consensus_mean_denserank_sorted (d0 : Table) (rest : List Table) :
    (∀ r ∈ consensus_score d0 rest, r.consensus = r.scores.sum / (r.scores.length : ℚ)) ∧
    (∀ r ∈ consensus_score d0 rest,
      r.rank = 1 + (((consensus_score d0 rest).map ConsRow.consensus).dedup.filter
        (fun w => decide (r.consensus < w))).length) ∧
    (consensus_score d0 rest).Pairwise (fun r1 r2 => r1.rank ≤ r2.rank) ∧
    (consensus_score c9Table []).map ConsRow.rank = [1, 1, 2] := by
  refine ⟨?_, ?_, ?_, by with_unfolding_all rfl⟩
  · intro r hr
    simp only [consensus_score] at hr
    obtain ⟨p, hp, rfl⟩ := List.mem_map.mp ((perm_sortByRank _).mem_iff.mp hr)
    obtain ⟨q, hq, rfl⟩ := List.mem_map.mp hp
    simp [pdMean]
  · intro r hr
    simp only [consensus_score] at hr ⊢
    set M := mergedRows d0 rest with hM
    set wc := M.map (fun p => (p.1, p.2, pdMean p.2)) with hwc
    set vals := wc.map (fun p => p.2.2) with hvals
    set rows := wc.map (fun p => ConsRow.mk p.1 p.2.1 p.2.2
      (rankIn (sortDesc vals.dedup) p.2.2)) with hrows
    obtain ⟨p, hp, rfl⟩ := List.mem_map.mp ((perm_sortByRank _).mem_iff.mp hr)
    show rankIn (sortDesc vals.dedup) p.2.2 =
      1 + (((sortByRank rows).map ConsRow.consensus).dedup.filter
        (fun w => decide (p.2.2 < w))).length
    rw [rank_characterization vals _ (List.mem_map.mpr ⟨p, hp, rfl⟩)]
    congr 1
    refine (List.Perm.length_eq (List.Perm.filter _ (List.Perm.dedup ?_))).symm
    have h1 := (perm_sortByRank rows).map ConsRow.consensus
    have h2 : rows.map ConsRow.consensus = vals := by
      rw [hrows, hvals, List.map_map]
      rfl
    rw [h2] at h1
    exact h1
  · simp only [consensus_score]
    exact sortByRank_sorted _

/-- C9 witness: the mean and dense-rank clauses at the concrete
three-compound table, instantiated at its first output row. -/
theorem consensus_mean_denserank_sorted_witness :
    (ConsRow.mk "B" [1] 1 1) ∈ consensus_score c9Table [] ∧
    (ConsRow.mk "B" [1] 1 1).consensus =
      (ConsRow.mk "B" [1] 1 1).scores.sum / ((ConsRow.mk "B" [1] 1 1).scores.length : ℚ) ∧
    (ConsRow.mk "B" [1] 1 1).rank =
      1 + (((consensus_score c9Table []).map ConsRow.consensus).dedup.filter
        (fun w => decide ((ConsRow.mk "B" [1] 1 1).consensus < w))).length := by
  have hmem : (ConsRow.mk "B" [1] 1 1) ∈ consensus_score c9Table [] :=
    of_decide_eq_true (by with_unfolding_all rfl)
  exact ⟨hmem, (consensus_mean_denserank_sorted c9Table []).1 _ hmem,
    (consensus_mean_denserank_sorted c9Table []).2.1 _ hmem⟩

end ADMET
